import Mathlib

/-!
Verification of the portpicker library.

The OS socket layer is modelled as a `World`: a pair of oracles, one per
protocol (UDP, TCP), mapping a wildcard socket address (family + port) to
the outcome of a bind attempt — `none` when the bind fails (port in use,
permission denied, family unsupported, or `local_addr` fails), and
`some p` when it succeeds with `p` being the port read back from
`local_addr` (equal to the requested port unless port 0 was requested,
in which case the OS assigns a port).  A `World` is held fixed across a
call, modelling unchanged system port occupancy.  Randomness is modelled
by an explicit stream `rng : Nat → Nat` of raw random values; the Rust
`rng.gen_range(15000..25000)` draw is modelled as `15000 + r % 10000`,
a value of the half-open range `[15000, 25000)`.
-/

namespace Portpicker

/-- Ports are unsigned 16-bit integers; we represent their values as `Nat`
(all values involved stay below 2^16, so no wraparound arises). -/
abbrev Port := Nat

/-- The two address families probed; the code only ever uses the wildcard
(unspecified) address of each family. -/
inductive Family
| v4
| v6

/-- A wildcard socket address: an address family together with a port. -/
structure SockAddr where
  family : Family
  port : Port

/-- The fixed system state: bind oracles for UDP and TCP. -/
structure World where
  bindUdp : SockAddr → Option Port
  bindTcp : SockAddr → Option Port

/-- `fn test_bind_udp<A: ToSocketAddrs>(addr: A) -> Option<Port>`:
bind a UDP socket, read back the local port; `None` on failure. -/
def test_bind_udp (w : World) (addr : SockAddr) : Option Port :=
  w.bindUdp addr

/-- `fn test_bind_tcp<A: ToSocketAddrs>(addr: A) -> Option<Port>`:
bind a TCP listener, read back the local port; `None` on failure. -/
def test_bind_tcp (w : World) (addr : SockAddr) : Option Port :=
  w.bindTcp addr

/-- `pub fn is_free_udp(port: Port) -> bool`: UDP bind succeeds on the
IPv6 wildcard and on the IPv4 wildcard at `port`. -/
def is_free_udp (w : World) (port : Port) : Bool :=
  (test_bind_udp w ⟨Family.v6, port⟩).isSome && (test_bind_udp w ⟨Family.v4, port⟩).isSome

/-- `pub fn is_free_tcp(port: Port) -> bool`: TCP bind succeeds on the
IPv6 wildcard and on the IPv4 wildcard at `port`. -/
def is_free_tcp (w : World) (port : Port) : Bool :=
  (test_bind_tcp w ⟨Family.v6, port⟩).isSome && (test_bind_tcp w ⟨Family.v4, port⟩).isSome

/-- `pub fn is_free(port: Port) -> bool`: free on both TCP and UDP. -/
def is_free (w : World) (port : Port) : Bool :=
  is_free_tcp w port && is_free_udp w port

/-- `fn ask_free_tcp_port() -> Option<Port>`: TCP bind at port 0 on the
IPv6 wildcard, falling back to the IPv4 wildcard. -/
def ask_free_tcp_port (w : World) : Option Port :=
  (test_bind_tcp w ⟨Family.v6, 0⟩).orElse (fun _ => test_bind_tcp w ⟨Family.v4, 0⟩)

/-- Model of `rng.gen_range(15000..25000)` on a raw random value `r`:
some value of the half-open range `[15000, 25000)`. -/
def gen_range15000_25000 (r : Nat) : Port :=
  15000 + r % 10000

/-- The ten candidate ports drawn in the random phase of
`pick_unused_port`, from the random stream `rng`. -/
def random_draws (rng : Nat → Nat) : List Port :=
  (List.range 10).map (fun i => gen_range15000_25000 (rng i))

/-- The first loop of `pick_unused_port`:
`for _ in 0..10 { let port = rng.gen_range(15000..25000); if is_free(port) { return Some(port); } }`
run on the list of drawn candidates. -/
def random_phase (w : World) : List Port → Option Port
  | [] => none
  | p :: rest => if is_free w p then some p else random_phase w rest

/-- The second loop of `pick_unused_port`:
`for _ in 0..10 { if let Some(port) = ask_free_tcp_port() { if is_free_udp(port) { return Some(port); } } }`
with the remaining iteration count as fuel. -/
def os_phase (w : World) : Nat → Option Port
  | 0 => none
  | n + 1 =>
    match ask_free_tcp_port w with
    | some port => if is_free_udp w port then some port else os_phase w n
    | none => os_phase w n

/-- `pub fn pick_unused_port() -> Option<Port>`: the random phase over ten
drawn candidates, then the OS-assignment phase with ten attempts, then
`None`. -/
def pick_unused_port (w : World) (rng : Nat → Nat) : Option Port :=
  match random_phase w (random_draws rng) with
  | some p => some p
  | none => os_phase w 10

/-- `pub fn pick_unused_port_range(range: Range<u16>) -> Option<Port>`:
`range.into_iter().filter(|x| is_free(*x)).next()`.  The Rust range
`lo..hi` iterates `lo, lo+1, …, hi-1`, i.e. `List.range' lo (hi - lo)`. -/
def pick_unused_port_range (w : World) (lo hi : Port) : Option Port :=
  ((List.range' lo (hi - lo)).filter (fun x => is_free w x)).head?

/-! ### Concrete worlds used as witnesses -/

/-- A world in which every bind succeeds at the requested port. -/
def wAll : World :=
  ⟨fun a => some a.port, fun a => some a.port⟩

/-- A world in which every bind fails. -/
def wNone : World :=
  ⟨fun _ => none, fun _ => none⟩

/-- A world whose UDP binds all succeed, while TCP binds fail at every
concrete port and the port-0 request is assigned port 40000. -/
def wTcpGap : World :=
  ⟨fun a => some a.port, fun a => if a.port = 0 then some 40000 else none⟩

/-- A random stream that is constantly zero (every drawn port is 15000). -/
def rngZero : Nat → Nat :=
  fun _ => 0

/-! ### Helper lemmas -/

theorem random_phase_eq_find (w : World) (l : List Port) :
    random_phase w l = l.find? (fun q => is_free w q) := by
  induction l with
  | nil => rfl
  | cons p rest ih =>
    rw [random_phase, List.find?]
    cases h : is_free w p with
    | true => simp [h]
    | false => simp [h, ih]

theorem os_phase_succ (w : World) (n : Nat) :
    os_phase w (n + 1) =
      match ask_free_tcp_port w with
      | some p => if is_free_udp w p then some p else none
      | none => none := by
  induction n with
  | zero =>
    rw [os_phase]
    cases h : ask_free_tcp_port w with
    | none => rfl
    | some p => cases hu : is_free_udp w p <;> simp [hu, os_phase]
  | succ n ih =>
    rw [os_phase, ih]
    cases h : ask_free_tcp_port w with
    | none => rfl
    | some p => cases hu : is_free_udp w p <;> simp [hu]

theorem head_filter_range_min (f : Port → Bool) :
    ∀ (n s a : Nat), ((List.range' s n).filter f).head? = some a →
      ∀ q, s ≤ q → q < a → f q = false := by
  intro n
  induction n with
  | zero => intro s a h q _ _; simp [List.range'] at h
  | succ n ih =>
    intro s a h q hsq hqa
    rw [List.range'_succ, List.filter_cons] at h
    by_cases hf : f s = true
    · rw [if_pos hf, List.head?_cons] at h
      have hsa : s = a := by injection h
      exact absurd hqa (by omega)
    · rw [if_neg hf] at h
      rcases Nat.eq_or_lt_of_le hsq with heq | hlt
      · rw [← heq]
        exact Bool.not_eq_true (f s) ▸ hf
      · exact ih (s + 1) a h q hlt hqa

theorem pick_range_some (w : World) (lo hi p : Nat)
    (h : pick_unused_port_range w lo hi = some p) :
    lo ≤ p ∧ p < hi ∧ is_free w p = true := by
  unfold pick_unused_port_range at h
  have hmem : p ∈ (List.range' lo (hi - lo)).filter (fun x => is_free w x) := by
    cases hl : (List.range' lo (hi - lo)).filter (fun x => is_free w x) with
    | nil => rw [hl] at h; cases h
    | cons b t =>
      rw [hl, List.head?_cons] at h
      have hbp : b = p := by injection h
      rw [← hbp]
      exact List.mem_cons_self b t
  have hsplit := List.mem_filter.mp hmem
  have hb := List.mem_range'_1.mp hsplit.1
  exact ⟨hb.1, by omega, hsplit.2⟩

theorem pick_range_some_min (w : World) (lo hi p : Nat)
    (h : pick_unused_port_range w lo hi = some p) :
    ∀ q, lo ≤ q → q < p → is_free w q = false := by
  unfold pick_unused_port_range at h
  exact head_filter_range_min (fun x => is_free w x) (hi - lo) lo p h

theorem pick_range_none_iff (w : World) (lo hi : Nat) :
    pick_unused_port_range w lo hi = none ↔
      ∀ q, lo ≤ q → q < hi → is_free w q = false := by
  unfold pick_unused_port_range
  rw [List.head?_eq_none_iff, List.filter_eq_nil_iff]
  constructor
  · intro hall q h1 h2
    have hm : q ∈ List.range' lo (hi - lo) := List.mem_range'_1.mpr ⟨h1, by omega⟩
    have := hall q hm
    simpa using this
  · intro hall q hq
    have hb := List.mem_range'_1.mp hq
    have := hall q hb.1 (by omega)
    simp [this]

/-- The set of free ports in the half-open range, as a decidable
proposition. -/
def existsFree (w : World) (lo hi : Nat) : Prop :=
  ∃ p, lo ≤ p ∧ p < hi ∧ is_free w p = true

instance existsFreeDec (w : World) (lo hi : Nat) : Decidable (existsFree w lo hi) :=
  decidable_of_iff ((List.range' lo (hi - lo)).any (fun q => is_free w q) = true) (by
    rw [List.any_eq_true]
    constructor
    · rintro ⟨p, hm, hf⟩
      have hb := List.mem_range'_1.mp hm
      exact ⟨p, hb.1, by omega, hf⟩
    · rintro ⟨p, h1, h2, hf⟩
      exact ⟨p, List.mem_range'_1.mpr ⟨h1, by omega⟩, hf⟩)

/-- Modelled from the spec: the lowest free port in the half-open range
`[lo, hi)`, absence if none is free.  This is the spec-side description
of `pick_unused_port_range`, used for the refinement claim. -/
def lowest_free_spec (w : World) (lo hi : Nat) : Option Port :=
  if h : existsFree w lo hi then
    some (Nat.find (show ∃ p, lo ≤ p ∧ p < hi ∧ is_free w p = true from h))
  else none

/-! ### The claims -/

/-- C1: in its random phase, `pick_unused_port` makes at most 10 attempts
(exactly 10 candidates are drawn), each candidate lies in the half-open
range `[15000, 25000)`, each is tested with `is_free`, and the first
candidate passing `is_free` is returned as `some`. -/
theorem pick_unused_port_random_phase_first_free (w : World) (rng : Nat → Nat) (p : Nat)
    (h : (random_draws rng).find? (fun q => is_free w q) = some p) :
    pick_unused_port w rng = some p ∧ 15000 ≤ p ∧ p < 25000 ∧ is_free w p = true ∧
      (random_draws rng).length = 10 := by
  refine ⟨?_, ?_, ?_, List.find?_some h, by simp [random_draws]⟩
  · unfold pick_unused_port
    rw [random_phase_eq_find, h]
  · have hm := List.mem_of_find?_eq_some h
    simp only [random_draws, List.mem_map, List.mem_range] at hm
    obtain ⟨i, _, hi⟩ := hm
    rw [← hi]
    unfold gen_range15000_25000
    omega
  · have hm := List.mem_of_find?_eq_some h
    simp only [random_draws, List.mem_map, List.mem_range] at hm
    obtain ⟨i, _, hi⟩ := hm
    rw [← hi]
    unfold gen_range15000_25000
    have := Nat.mod_lt (rng i) (show 0 < 10000 by omega)
    omega

theorem pick_unused_port_random_phase_first_free_witness :
    pick_unused_port wAll rngZero = some 15000 ∧ 15000 ≤ 15000 ∧ 15000 < 25000 ∧
      is_free wAll 15000 = true ∧ (random_draws rngZero).length = 10 :=
  pick_unused_port_random_phase_first_free wAll rngZero 15000 (by decide)

/-- C2: when every one of the 10 random candidates fails `is_free`,
`pick_unused_port` falls through to the OS-assignment phase, whose result
is fully characterised by `ask_free_tcp_port` (a TCP bind at port 0 on the
IPv6 wildcard, falling back to the IPv4 wildcard) followed by the
`is_free_udp` check alone: the first OS-assigned port passing the UDP
check is returned, and no TCP dual-stack freeness check occurs. -/
theorem pick_unused_port_os_phase (w : World) (rng : Nat → Nat)
    (h : (random_draws rng).find? (fun q => is_free w q) = none) :
    pick_unused_port w rng =
      match ask_free_tcp_port w with
      | some p => if is_free_udp w p then some p else none
      | none => none := by
  unfold pick_unused_port
  rw [random_phase_eq_find, h]
  exact os_phase_succ w 9

theorem pick_unused_port_os_phase_witness :
    pick_unused_port wTcpGap rngZero = some 40000 :=
  (pick_unused_port_os_phase wTcpGap rngZero (by decide)).trans (by decide)

/-- C3: `pick_unused_port_range` scans the half-open range in ascending
order: a returned port is in the range, passes `is_free`, and every
smaller port of the range fails `is_free`; the result is `none` exactly
when no port of the range passes `is_free`. -/
theorem pick_unused_port_range_first_free (w : World) (lo hi : Nat) :
    (∀ p, pick_unused_port_range w lo hi = some p →
        lo ≤ p ∧ p < hi ∧ is_free w p = true ∧
          ∀ q, lo ≤ q → q < p → is_free w q = false) ∧
    (pick_unused_port_range w lo hi = none ↔
        ∀ q, lo ≤ q → q < hi → is_free w q = false) := by
  constructor
  · intro p h
    obtain ⟨h1, h2, h3⟩ := pick_range_some w lo hi p h
    exact ⟨h1, h2, h3, pick_range_some_min w lo hi p h⟩
  · exact pick_range_none_iff w lo hi

/-- C4: `is_free p` holds exactly when both `is_free_tcp p` and
`is_free_udp p` hold; in particular each conjunct holds whenever
`is_free p` does. -/
theorem is_free_conj (w : World) (p : Port) :
    (is_free w p = true ↔ (is_free_tcp w p = true ∧ is_free_udp w p = true)) ∧
    (is_free w p = true → is_free_tcp w p = true) ∧
    (is_free w p = true → is_free_udp w p = true) := by
  unfold is_free
  refine ⟨?_, ?_, ?_⟩ <;>
    cases is_free_tcp w p <;> cases is_free_udp w p <;> simp

/-- C5: `is_free_udp p` holds exactly when the UDP bind succeeds at `p`
on both the IPv6 and IPv4 wildcards, `is_free_tcp p` likewise for TCP;
a bind failure on any single family/protocol combination forces the
corresponding predicate, and `is_free`, to `false`. -/
theorem is_free_udp_tcp_bind (w : World) (p : Port) :
    (is_free_udp w p = true ↔
      ((test_bind_udp w ⟨Family.v6, p⟩).isSome = true ∧
        (test_bind_udp w ⟨Family.v4, p⟩).isSome = true)) ∧
    (is_free_tcp w p = true ↔
      ((test_bind_tcp w ⟨Family.v6, p⟩).isSome = true ∧
        (test_bind_tcp w ⟨Family.v4, p⟩).isSome = true)) ∧
    ((test_bind_udp w ⟨Family.v6, p⟩).isSome = false ∨
        (test_bind_udp w ⟨Family.v4, p⟩).isSome = false →
      is_free_udp w p = false ∧ is_free w p = false) ∧
    ((test_bind_tcp w ⟨Family.v6, p⟩).isSome = false ∨
        (test_bind_tcp w ⟨Family.v4, p⟩).isSome = false →
      is_free_tcp w p = false ∧ is_free w p = false) := by
  unfold is_free is_free_udp is_free_tcp
  cases (test_bind_udp w ⟨Family.v6, p⟩).isSome <;>
    cases (test_bind_udp w ⟨Family.v4, p⟩).isSome <;>
    cases (test_bind_tcp w ⟨Family.v6, p⟩).isSome <;>
    cases (test_bind_tcp w ⟨Family.v4, p⟩).isSome <;>
    simp

/-- C6: when every random candidate fails `is_free` and no OS-assigned
port passes `is_free_udp`, `pick_unused_port` returns `none` — an absence
value, not an error (fallible probes yield `Option` throughout and a bind
failure is folded into `none`, never surfaced). -/
theorem pick_unused_port_exhausted_none (w : World) (rng : Nat → Nat)
    (h1 : (random_draws rng).find? (fun q => is_free w q) = none)
    (h2 : ∀ p, ask_free_tcp_port w = some p → is_free_udp w p = false) :
    pick_unused_port w rng = none := by
  unfold pick_unused_port
  rw [random_phase_eq_find, h1]
  have h10 : os_phase w 10 =
      match ask_free_tcp_port w with
      | some p => if is_free_udp w p then some p else none
      | none => none := os_phase_succ w 9
  rw [h10]
  cases h : ask_free_tcp_port w with
  | none => rfl
  | some p => simp [h2 p h]

theorem pick_unused_port_exhausted_none_witness :
    pick_unused_port wNone rngZero = none :=
  pick_unused_port_exhausted_none wNone rngZero (by decide) (by
    intro p hp
    have hnone : ask_free_tcp_port wNone = none := rfl
    rw [hnone] at hp
    cases hp)

/-- C7: every port returned by `pick_unused_port_range` over `[lo, hi)`
lies in the half-open interval `[lo, hi)`; in particular a `some` result
over `15000..16000` satisfies `15000 ≤ p < 16000`. -/
theorem pick_unused_port_range_mem (w : World) (lo hi p : Nat)
    (h : pick_unused_port_range w lo hi = some p) :
    lo ≤ p ∧ p < hi := by
  obtain ⟨h1, h2, _⟩ := pick_range_some w lo hi p h
  exact ⟨h1, h2⟩

theorem pick_unused_port_range_mem_witness :
    pick_unused_port_range wAll 15000 16000 = some 15000 ∧
      15000 ≤ 15000 ∧ 15000 < 16000 := by
  have h : pick_unused_port_range wAll 15000 16000 = some 15000 := by
    have : existsFree wAll 15000 16000 := ⟨15000, by decide, by decide, rfl⟩
    cases hr : pick_unused_port_range wAll 15000 16000 with
    | none =>
      obtain ⟨q, hq1, hq2, hq3⟩ := this
      rw [(pick_range_none_iff wAll 15000 16000).mp hr q hq1 hq2] at hq3
      cases hq3
    | some b =>
      have hb := pick_range_some wAll 15000 16000 b hr
      have := pick_range_some_min wAll 15000 16000 b hr
      have hble : b = 15000 := by
        by_contra hne
        have hlt : 15000 < b := Nat.lt_of_le_of_ne hb.1 (fun hh => hne hh.symm)
        have h15 : is_free wAll 15000 = false := this 15000 (Nat.le_refl _) hlt
        cases h15
      rw [hble]
  exact ⟨h, pick_unused_port_range_mem wAll 15000 16000 15000 h⟩

/-- C8: holding the world (system port occupancy) fixed,
`pick_unused_port_range` is a pure function of the range, equal to the
spec-side description `lowest_free_spec` (the lowest free port of the
range, absence if none): repeated calls with the same range agree, and
no randomness enters the computation. -/
theorem pick_unused_port_range_deterministic_lowest (w : World) (lo hi : Nat) :
    pick_unused_port_range w lo hi = lowest_free_spec w lo hi := by
  cases hr : pick_unused_port_range w lo hi with
  | some p =>
    have hp := pick_range_some w lo hi p hr
    have hmin := pick_range_some_min w lo hi p hr
    have hex : existsFree w lo hi := ⟨p, hp⟩
    unfold lowest_free_spec
    rw [dif_pos hex]
    have hfind : Nat.find (show ∃ q, lo ≤ q ∧ q < hi ∧ is_free w q = true from hex) = p := by
      rw [Nat.find_eq_iff]
      refine ⟨hp, ?_⟩
      rintro n hn ⟨hn1, _, hn3⟩
      rw [hmin n hn1 hn] at hn3
      cases hn3
    rw [hfind]
  | none =>
    have hall := (pick_range_none_iff w lo hi).mp hr
    have hnex : ¬ existsFree w lo hi := by
      rintro ⟨q, h1, h2, h3⟩
      rw [hall q h1 h2] at h3
      cases h3
    unfold lowest_free_spec
    rw [dif_neg hnex]

/-- C9: for an empty range (`lo = hi`) the scan visits no candidate, so
`pick_unused_port_range` returns `none` in every world — independently of
system port occupancy, hence without any bind probe influencing the
result. -/
theorem pick_unused_port_range_empty_none (w : World) (lo : Nat) :
    pick_unused_port_range w lo lo = none := by
  unfold pick_unused_port_range
  rw [Nat.sub_self]
  rfl

/-- C10: port 0 receives no special treatment: `is_free w 0` is just the
dual-stack bind probe at the sentinel port 0 (definitionally the
conjunction of the TCP and UDP checks, with no case split on the port),
so in a world where those binds succeed it returns `true`, and
`pick_unused_port_range` over `0..1` returns `some 0`. -/
theorem port_zero_not_special :
    is_free wAll 0 = true ∧
    pick_unused_port_range wAll 0 1 = some 0 ∧
    (∀ w : World, is_free w 0 = (is_free_tcp w 0 && is_free_udp w 0)) :=
  ⟨rfl, by decide, fun _ => rfl⟩

end Portpicker
